import Mathlib

/-!
Verification development for the security-copilot issue-document server.

The definitions below are a shallow embedding of the repository's code:

* the JSON-ish runtime values exchanged with the HTTP handlers
  (`JsVal`, `JsNum`, with the JavaScript truthiness / string / number
  coercions the handlers rely on);
* the nested issue document (`IssueDocument` = sections → sub-sections →
  finding templates → `SemTemplate`), from `server/index.js`;
* the route bodies: `postRoute` (POST /api/issues), `putIssue`
  (PUT /api/issues/:id), `deleteIssue` (DELETE /api/issues/:id) and the
  pruning variant `deleteByTitle`, plus the scrape fan-out
  (POST /api/scrape);
* the front-end projection `extractIssues` together with `normalizeUrl`,
  `normalizeRecommendations` and `getSeverityLabel` from `App.tsx` /
  `Settings.tsx`.

Theorems about the claims follow the definitions.
-/

/-- JavaScript numbers, with `NaN` kept explicit; finite values are modelled
as rationals (the source only ever compares and stores decimal literals, so
no claim depends on binary floating-point rounding). -/
inductive JsNum where
  | nan : JsNum
  | num : ℚ → JsNum
deriving DecidableEq

/-- JSON-ish runtime values that flow through the request handlers:
strings, numbers and arrays.  Absent/null fields are modelled by wrapping
in `Option`. -/
inductive JsVal where
  | vStr : String → JsVal
  | vNum : JsNum → JsVal
  | vArr : List JsVal → JsVal

/-- JavaScript truthiness, used by the source's `a || b` defaults and
`!u` guards: empty strings, `0` and `NaN` are falsy; arrays are truthy. -/
def truthy : JsVal → Bool
  | .vStr s => s ≠ ""
  | .vNum .nan => false
  | .vNum (.num q) => q ≠ 0
  | .vArr _ => true

/-- Decimal digits of a natural number (fuel-driven; the fuel `n + 1`
always suffices). -/
def natReprAux : ℕ → ℕ → List Char
  | 0, _ => []
  | fuel + 1, n =>
    if n < 10 then [Nat.digitChar n]
    else natReprAux fuel (n / 10) ++ [Nat.digitChar (n % 10)]

/-- Characters of an integer in decimal. -/
def intChars (i : ℤ) : List Char :=
  if i < 0 then '-' :: natReprAux (i.natAbs + 1) i.natAbs
  else natReprAux (i.natAbs + 1) i.natAbs

/-- Display form of a rational (used only inside `jsToString`; no theorem
below depends on the exact rendering of numbers, only on its being
non-empty). -/
def ratToString (q : ℚ) : String :=
  String.mk (intChars q.num ++
    (if q.den = 1 then [] else '/' :: natReprAux (q.den + 1) q.den))

/-- Display form of a number. -/
def numToString : JsNum → String
  | .nan => "NaN"
  | .num q => ratToString q

mutual

/-- JavaScript `String(v)` coercion: strings unchanged, numbers rendered,
arrays joined with commas. -/
def jsToString : JsVal → String
  | .vStr s => s
  | .vNum n => numToString n
  | .vArr xs => jsToStringList xs

def jsToStringList : List JsVal → String
  | [] => ""
  | [x] => jsToString x
  | x :: y :: xs => jsToString x ++ "," ++ jsToStringList (y :: xs)

end

/-- Whitespace recognised by the JavaScript string trim. -/
def isJsWs (c : Char) : Bool :=
  c = ' ' || c = '\t' || c = '\n' || c = '\r'

/-- JavaScript `s.trim()`: drop leading and trailing whitespace. -/
def jsTrim (s : String) : String :=
  String.mk (((s.toList.dropWhile isJsWs).reverse.dropWhile isJsWs).reverse)

/-- Accumulate a run of decimal digits: returns the value read so far, the
number of digits consumed and the rest of the input. -/
def digAcc : ℕ → ℕ → List Char → ℕ × ℕ × List Char
  | v, n, [] => (v, n, [])
  | v, n, c :: cs =>
    if c.isDigit then digAcc (10 * v + (c.toNat - 48)) (n + 1) cs
    else (v, n, c :: cs)

/-- JavaScript `Number(s)` on a string, modelled for decimal literals:
surrounding whitespace is ignored, the empty string is `0`, an optional
sign followed by digits with an optional fractional part parses to that
value, and anything else is `NaN`.  (Exponent/hex forms are not used by
the repository's data and are not modelled.) -/
def strToNumber (s : String) : JsNum :=
  let cs := ((s.toList.dropWhile isJsWs).reverse.dropWhile isJsWs).reverse
  match cs with
  | [] => .num 0
  | _ =>
    let signAndRest : ℚ × List Char :=
      match cs with
      | '+' :: t => (1, t)
      | '-' :: t => (-1, t)
      | t => (1, t)
    let sign := signAndRest.1
    let cs1 := signAndRest.2
    let ipRes := digAcc 0 0 cs1
    let ip := ipRes.1
    let ni := ipRes.2.1
    match ipRes.2.2 with
    | [] => if ni = 0 then .nan else .num (sign * ip)
    | '.' :: cs3 =>
      let fpRes := digAcc 0 0 cs3
      let fp := fpRes.1
      let nf := fpRes.2.1
      if fpRes.2.2 = [] ∧ 0 < ni + nf then
        .num (sign * ((ip : ℚ) + (fp : ℚ) / (10 : ℚ) ^ nf))
      else .nan
    | _ => .nan

/-- JavaScript `Number(v)` coercion: numbers unchanged, strings parsed,
arrays first converted to their joined string form. -/
def jsNumber : JsVal → JsNum
  | .vNum n => n
  | .vStr s => strToNumber s
  | .vArr xs => strToNumber (jsToStringList xs)

/-- JavaScript `a || b`: the value when truthy, otherwise the default. -/
def jsOrDefault (v : Option JsVal) (dflt : JsVal) : JsVal :=
  match v with
  | some x => if truthy x then x else dflt
  | none => dflt

/-- Does the first list start with the second? -/
def listStartsWith : List Char → List Char → Bool
  | _, [] => true
  | [], _ :: _ => false
  | c :: cs, p :: ps => c == p && listStartsWith cs ps

/-- Test for the regex `/^https?:\/\//i` of `normalizeUrl` in `App.tsx`:
a case-insensitive `http://` or `https://` prefix. -/
def startsHttp (s : String) : Bool :=
  let l := s.toList.map Char.toLower
  listStartsWith l "http://".toList || listStartsWith l "https://".toList

/-- Character class `[\w.-]` of the domain regex in `App.tsx`. -/
def isStemChar (c : Char) : Bool :=
  c.isAlphanum || c = '_' || c = '.' || c = '-'

/-- After the separating dot of `/^[\w.-]+\.[a-z]{2,}([\/?#].*)?$/i`: a run
of at least two letters, then either the end of the string or a character
opening a path/query/fragment. -/
def domainTailOK (cs : List Char) : Bool :=
  let run := cs.takeWhile (fun c => c.isAlpha)
  let rest := cs.dropWhile (fun c => c.isAlpha)
  decide (2 ≤ run.length) &&
    (rest.isEmpty || rest.head? = some '/' || rest.head? = some '?' ||
      rest.head? = some '#')

/-- Scan for a dot splitting the string as `stem "." tld tail` with a
nonempty `[\w.-]+` stem; mirrors the backtracking semantics of the regex
(a dot may either end the stem or be part of it). -/
def domainScan : Bool → List Char → Bool
  | _, [] => false
  | seenStem, c :: rest =>
    if c = '.' && seenStem && domainTailOK rest then true
    else if isStemChar c then domainScan true rest
    else false

/-- Test for the bare-domain regex `/^[\w.-]+\.[a-z]{2,}([\/?#].*)?$/i`
used by `normalizeUrl` in `App.tsx`. -/
def domainLike (s : String) : Bool :=
  domainScan false s.toList

/-- The stored issue record (`sem_template` in the persisted JSON).
`sem_header` is always a string in storage (both writers store
`String(...)`); the other fields keep the runtime values the handlers
store. -/
structure SemTemplate where
  sem_header : String
  sem_category : JsVal
  severity_score : Option JsNum
  sem_long_description : JsVal
  sem_recommendations : List JsVal
  sem_resolution_instruction : Option JsVal

/-- `finding_templates` entries: a thin wrapper around one `SemTemplate`. -/
structure FindingTemplate where
  sem_template : SemTemplate

/-- A sub-section: title plus its finding templates. -/
structure SubSection where
  title : String
  finding_templates : List FindingTemplate

/-- A section: title plus its sub-sections. -/
structure Section where
  title : String
  sub_sections : List SubSection

/-- The persisted root document. -/
structure IssueDocument where
  sections : List Section

/-- The document with no sections (`{ sections: [] }`). -/
def emptyDoc : IssueDocument := ⟨[]⟩

/-- Whether any finding template anywhere in the document has the given
`sem_header`. -/
def hasHeader (d : IssueDocument) (h : String) : Bool :=
  d.sections.any fun sec =>
    sec.sub_sections.any fun sub =>
      sub.finding_templates.any fun ft => ft.sem_template.sem_header == h

/-- All `sem_header`s of the document, in traversal order. -/
def allHeaders (d : IssueDocument) : List String :=
  d.sections.flatMap fun sec =>
    sec.sub_sections.flatMap fun sub =>
      sub.finding_templates.map fun ft => ft.sem_template.sem_header

/-- Request payload for POST/PUT `/api/issues`; `none` models an
absent (or `null`) field. -/
structure Payload where
  sem_header : Option JsVal
  sem_category : Option JsVal
  severity_score : Option JsVal
  sem_long_description : Option JsVal
  sem_recommendations : Option JsVal
  sem_resolution_instruction : Option JsVal

/-- Payload carrying only a title, as sent by the minimal create calls. -/
def mkP (h : String) : Payload :=
  ⟨some (.vStr h), none, none, none, none, none⟩

/-- The structural defaults of POST /api/issues: guarantee one section and
one sub-section, creating "Default Section" / "Default Subsection" when
missing. -/
def ensureDoc (d : IssueDocument) : IssueDocument :=
  match d.sections with
  | [] => ⟨[⟨"Default Section", [⟨"Default Subsection", []⟩]⟩]⟩
  | s :: rest =>
    match s.sub_sections with
    | [] => ⟨⟨s.title, [⟨"Default Subsection", []⟩]⟩ :: rest⟩
    | _ => d

/-- The first sub-section of the first section (the create target);
total, with a junk value on malformed shapes that `ensureDoc` rules out. -/
def firstSub (d : IssueDocument) : SubSection :=
  match d.sections with
  | s :: _ =>
    match s.sub_sections with
    | sb :: _ => sb
    | [] => ⟨"", []⟩
  | [] => ⟨"", []⟩

/-- Append a finding template to the first sub-section of the first
section. -/
def insertFirstSub (d : IssueDocument) (ft : FindingTemplate) : IssueDocument :=
  match d.sections with
  | s :: rest =>
    match s.sub_sections with
    | sb :: sbs =>
      ⟨⟨s.title, ⟨sb.title, sb.finding_templates ++ [ft]⟩ :: sbs⟩ :: rest⟩
    | [] => d
  | [] => d

/-- The `sem_template` object built by POST /api/issues from a payload
whose `sem_header` is the string `h`: the header is trimmed, the category
defaults via `||` to "Configuration Changes", the severity is kept when a
number and otherwise runs through `Number(x || 0)`, the description
defaults via `||` to the empty string, the recommendations keep only an
array value, and the resolution instruction is normalized to an array. -/
def buildTemplate (h : String) (p : Payload) : SemTemplate where
  sem_header := jsTrim h
  sem_category := jsOrDefault p.sem_category (.vStr "Configuration Changes")
  severity_score := some (match p.severity_score with
    | some (.vNum n) => n
    | v => jsNumber (jsOrDefault v (.vNum (.num 0))))
  sem_long_description := jsOrDefault p.sem_long_description (.vStr "")
  sem_recommendations :=
    match p.sem_recommendations with
    | some (.vArr xs) => xs
    | _ => []
  sem_resolution_instruction := some (match p.sem_resolution_instruction with
    | some (.vArr xs) => .vArr xs
    | some v => if truthy v then .vArr [v] else .vArr []
    | none => .vArr [])

/-- Outcome of POST /api/issues. -/
inductive CreateResult where
  | badRequest : CreateResult
  | conflict : CreateResult
  | created : SemTemplate → CreateResult

/-- Is the result a 201? -/
def CreateResult.isCreated : CreateResult → Bool
  | .created _ => true
  | _ => false

/-- POST /api/issues: returns the HTTP outcome together with the document
persisted afterwards (the input document when the request fails).
Mirrors the handler: validate the title, ensure the default containers,
reject when a template of the first sub-section already has the raw
submitted header, otherwise append the built template and persist. -/
def postRoute (p : Payload) (d : IssueDocument) : CreateResult × IssueDocument :=
  match p.sem_header with
  | some (.vStr h) =>
    if h = "" then (.badRequest, d)
    else
      let d1 := ensureDoc d
      if (firstSub d1).finding_templates.any
          (fun ft => ft.sem_template.sem_header == h) then
        (.conflict, d)
      else
        let st := buildTemplate h p
        (.created st, insertFirstSub d1 ⟨st⟩)
  | _ => (.badRequest, d)

/-- The document after a successful create, `none` on a 400/409. -/
def createStep (p : Payload) (d : IssueDocument) : Option IssueDocument :=
  match postRoute p d with
  | (.created _, d1) => some d1
  | _ => none

/-- The template stored by a successful create, `none` on a 400/409. -/
def createdTemplate (p : Payload) (d : IssueDocument) : Option SemTemplate :=
  match postRoute p d with
  | (.created st, _) => some st
  | _ => none

/-- A sequence of create calls starting from a document; `none` as soon as
one of them fails. -/
def createMany (hs : List String) (d : IssueDocument) : Option IssueDocument :=
  match hs with
  | [] => some d
  | h :: t =>
    match createStep (mkP h) d with
    | some d1 => createMany t d1
    | none => none

/-- Field-wise patch of PUT /api/issues/:id on one stored template: every
field present (non-null) in the payload is applied with the handler's
coercion (`String(...)` for strings, `Number(...)` for the severity,
wholesale replacement checked with `Array.isArray` for the arrays, and
array-normalization for the resolution instruction). -/
def putTpl (p : Payload) (st : SemTemplate) : SemTemplate :=
  let s1 := match p.sem_header with
    | some v => { st with sem_header := jsToString v }
    | none => st
  let s2 := match p.sem_category with
    | some v => { s1 with sem_category := JsVal.vStr (jsToString v) }
    | none => s1
  let s3 := match p.severity_score with
    | some v => { s2 with severity_score := some (jsNumber v) }
    | none => s2
  let s4 := match p.sem_long_description with
    | some v => { s3 with sem_long_description := JsVal.vStr (jsToString v) }
    | none => s3
  let s5 := match p.sem_recommendations with
    | some (.vArr xs) => { s4 with sem_recommendations := xs }
    | some _ => { s4 with sem_recommendations := [] }
    | none => s4
  match p.sem_resolution_instruction with
  | some (.vArr xs) => { s5 with sem_resolution_instruction := some (.vArr xs) }
  | some v =>
    let wrapped : JsVal := if truthy v then .vArr [v] else .vArr []
    { s5 with sem_resolution_instruction := some wrapped }
  | none => s5

/-- Scan a list of finding templates for the first one whose header is
`id`; patch it in place and return the updated template and list. -/
def putFTs (id : String) (p : Payload) :
    List FindingTemplate → Option (SemTemplate × List FindingTemplate)
  | [] => none
  | ft :: rest =>
    if ft.sem_template.sem_header == id then
      let st := putTpl p ft.sem_template
      some (st, ⟨st⟩ :: rest)
    else
      match putFTs id p rest with
      | some (st, rest1) => some (st, ft :: rest1)
      | none => none

/-- Scan the sub-sections of one section for the update target. -/
def putSubs (id : String) (p : Payload) :
    List SubSection → Option (SemTemplate × List SubSection)
  | [] => none
  | sub :: rest =>
    match putFTs id p sub.finding_templates with
    | some (st, fts1) => some (st, ⟨sub.title, fts1⟩ :: rest)
    | none =>
      match putSubs id p rest with
      | some (st, rest1) => some (st, sub :: rest1)
      | none => none

/-- Scan the sections for the update target. -/
def putSecs (id : String) (p : Payload) :
    List Section → Option (SemTemplate × List Section)
  | [] => none
  | sec :: rest =>
    match putSubs id p sec.sub_sections with
    | some (st, subs1) => some (st, ⟨sec.title, subs1⟩ :: rest)
    | none =>
      match putSecs id p rest with
      | some (st, rest1) => some (st, sec :: rest1)
      | none => none

/-- PUT /api/issues/:id: linear scan over the whole document for the first
template whose `sem_header` equals the id, patch it and persist; `none`
models the 404 response. -/
def putIssue (id : String) (p : Payload) (d : IssueDocument) :
    Option (SemTemplate × IssueDocument) :=
  match putSecs id p d.sections with
  | some (st, secs1) => some (st, ⟨secs1⟩)
  | none => none

/-- DELETE /api/issues/:id over the sub-sections of one section: the
handler filters each sub-section's templates and stops at the first
sub-section whose length changed. -/
def delSubs (id : String) : List SubSection → Option (List SubSection)
  | [] => none
  | sub :: rest =>
    let fts1 := sub.finding_templates.filter
      (fun ft => ft.sem_template.sem_header != id)
    if fts1.length ≠ sub.finding_templates.length then
      some (⟨sub.title, fts1⟩ :: rest)
    else
      match delSubs id rest with
      | some rest1 => some (sub :: rest1)
      | none => none

/-- DELETE /api/issues/:id over the sections. -/
def delSecs (id : String) : List Section → Option (List Section)
  | [] => none
  | sec :: rest =>
    match delSubs id sec.sub_sections with
    | some subs1 => some (⟨sec.title, subs1⟩ :: rest)
    | none =>
      match delSecs id rest with
      | some rest1 => some (sec :: rest1)
      | none => none

/-- DELETE /api/issues/:id of the main server: removes every template
matching the id from the first sub-section that contains one and persists;
`none` models the 404 response.  (This route performs no pruning of empty
containers.) -/
def deleteIssue (id : String) (d : IssueDocument) : Option IssueDocument :=
  match delSecs id d.sections with
  | some secs1 => some ⟨secs1⟩
  | none => none

/-- `deleteByTitle` of the earlier `server/index.js` revision: filter the
matching templates out of every sub-section, report whether anything was
removed, and prune — drop sub-sections left without templates, then drop
sections left without sub-sections. -/
def deleteByTitle (d : IssueDocument) (title : String) :
    Bool × IssueDocument :=
  let filterSub : SubSection → SubSection := fun sub =>
    ⟨sub.title, sub.finding_templates.filter
      (fun ft => ft.sem_template.sem_header != title)⟩
  let removed := d.sections.any fun sec =>
    sec.sub_sections.any fun sub =>
      (filterSub sub).finding_templates.length ≠ sub.finding_templates.length
  let secs1 := d.sections.map fun sec =>
    Section.mk sec.title (sec.sub_sections.map filterSub)
  let pruned := (secs1.map fun sec =>
    Section.mk sec.title
      (sec.sub_sections.filter fun sub => 0 < sub.finding_templates.length)
    ).filter fun sec => 0 < sec.sub_sections.length
  (removed, ⟨pruned⟩)

/-- Outcome of one `fetch(url)` inside the scrape handler, as an oracle
for the external network: either the call throws (bad URL, network error,
abort) or it returns a response with `ok`, a status and the extracted page
text.  (HTML-to-text extraction is an external collaborator in the spec
and is folded into the oracle's `body`.) -/
inductive FetchOutcome where
  | thrown : FetchOutcome
  | resp : Bool → ℕ → String → FetchOutcome

/-- One entry of the scrape response. -/
structure ScrapeEntry where
  url : String
  ok : Bool
  status : Option ℕ
  text : Option String
deriving DecidableEq

/-- One URL of the scrape batch: empty strings get a 400 marker, a thrown
fetch gets status 0, a non-ok response reports its status, and a good
response carries the text clipped to 15000 characters.  Every branch
produces that URL's own entry. -/
def scrapeOne (fetch : String → FetchOutcome) (u : JsVal) : ScrapeEntry :=
  let url := jsTrim (jsToString (jsOrDefault (some u) (.vStr "")))
  if url = "" then ⟨url, false, some 400, none⟩
  else
    match fetch url with
    | .thrown => ⟨url, false, some 0, none⟩
    | .resp ok status body =>
      if ¬ ok then ⟨url, false, some status, none⟩
      else
        let clipped :=
          if 15000 < body.length then String.mk (body.toList.take 15000)
          else body
        ⟨url, true, none, some clipped⟩

/-- POST /api/scrape of the main server: requires a non-empty array of
URLs, then maps every entry — without deduplication or filtering — to its
own result. -/
def scrapeRoute (fetch : String → FetchOutcome) (urls : Option JsVal) :
    Option (List ScrapeEntry) :=
  match urls with
  | some (.vArr us) =>
    if us.isEmpty then none
    else some (us.map (scrapeOne fetch))
  | _ => none

/-- `normalizeUrl` from `App.tsx`: falsy input is rejected; the trimmed
string is accepted as-is when it already carries an `http://`/`https://`
prefix, prefixed with `https://` when it looks like a bare domain, and
rejected otherwise. -/
def normalizeUrl (u : Option JsVal) : Option String :=
  match u with
  | some v =>
    if truthy v then
      let s := jsTrim (jsToString v)
      if s = "" then none
      else if startsHttp s then some s
      else if domainLike s then some ("https://" ++ s)
      else none
    else none
  | none => none

/-- `x || undefined` of the projection layer. -/
def jsOrUndefined (v : JsVal) : Option JsVal :=
  if truthy v then some v else none

/-- `normalizeRecommendations` from `App.tsx`, on the array-valued field
the server stores (arrays are always truthy, so the function's falsy and
scalar-splitting branches do not apply): stringify and trim every element,
drop the empty ones, and return `undefined` when nothing remains. -/
def normalizeRecommendations (val : List JsVal) : Option (List String) :=
  let arr := (val.map fun x => jsTrim (jsToString x)).filter fun s => s ≠ ""
  if 0 < arr.length then some arr else none

/-- The reference scan of `extractIssues` (`App.tsx` lines 47-57): on an
array, take the first element whose stringification normalizes to a URL;
on a scalar (or absent) value, normalize it directly. -/
def firstNorm : List JsVal → Option String
  | [] => none
  | c :: rest =>
    match normalizeUrl (some (.vStr (jsToString c))) with
    | some r => some r
    | none => firstNorm rest

/-- The `reference` computed by `extractIssues` for one stored template. -/
def referenceOf (st : SemTemplate) : Option String :=
  match st.sem_resolution_instruction with
  | some (.vArr xs) => firstNorm xs
  | instr => normalizeUrl instr

/-- The flat display record produced by `extractIssues`. -/
structure Issue where
  id : String
  name : String
  reference : Option String
  description : Option JsVal
  recommendations : Option (List String)
  severityScore : Option JsNum
  category : Option JsVal

/-- One pushed display issue: `k` is the number of issues already pushed
and `gen k` stands for the run of `Math.random().toString(36).slice(2, 8)`
used in the `id` fallback (stored templates carry no `uuid`). -/
def mkIssue (gen : ℕ → String) (k : ℕ) (st : SemTemplate) : Issue where
  id := st.sem_header ++ "-" ++ gen k
  name := st.sem_header
  reference := referenceOf st
  description := jsOrUndefined st.sem_long_description
  recommendations := normalizeRecommendations st.sem_recommendations
  severityScore := st.severity_score
  category := jsOrUndefined st.sem_category

/-- The template loop of `extractIssues`: skip templates with an empty
header or an already-seen one, otherwise push the display issue and record
the name. -/
def extractFTs (gen : ℕ → String) :
    List FindingTemplate → List String → List Issue → List String × List Issue
  | [], seen, out => (seen, out)
  | ft :: rest, seen, out =>
    let name := ft.sem_template.sem_header
    if name = "" ∨ name ∈ seen then extractFTs gen rest seen out
    else extractFTs gen rest (name :: seen)
      (out ++ [mkIssue gen out.length ft.sem_template])

/-- The sub-section loop of `extractIssues`. -/
def extractSubs (gen : ℕ → String) :
    List SubSection → List String → List Issue → List String × List Issue
  | [], seen, out => (seen, out)
  | sub :: rest, seen, out =>
    let p := extractFTs gen sub.finding_templates seen out
    extractSubs gen rest p.1 p.2

/-- The section loop of `extractIssues`. -/
def extractSecs (gen : ℕ → String) :
    List Section → List String → List Issue → List String × List Issue
  | [], seen, out => (seen, out)
  | sec :: rest, seen, out =>
    let p := extractSubs gen sec.sub_sections seen out
    extractSecs gen rest p.1 p.2

/-- `extractIssues` from `App.tsx`: flatten the nested document into
display issues, in traversal order, de-duplicating by `sem_header` with
the first occurrence winning. -/
def extractIssues (gen : ℕ → String) (d : IssueDocument) : List Issue :=
  (extractSecs gen d.sections [] []).2

/-- The severity buckets of `getSeverityLabel` / `sevBucket`. -/
inductive SeverityLabel where
  | critical : SeverityLabel
  | important : SeverityLabel
  | moderate : SeverityLabel
  | unknown : SeverityLabel
deriving DecidableEq

/-- `getSeverityLabel` from `App.tsx` (identical to `sevBucket` in
`Settings.tsx`): null/NaN scores are Unknown, scores `>= 0.9` Critical,
scores `>= 0.61` Important, everything below Moderate. -/
def getSeverityLabel : Option JsNum → SeverityLabel
  | none => .unknown
  | some .nan => .unknown
  | some (.num q) =>
    if (9 : ℚ) / 10 ≤ q then .critical
    else if (61 : ℚ) / 100 ≤ q then .important
    else .moderate

/-- The reference projection as the spec words it: coerce the stored
`sem_resolution_instruction` to a sequence when it is a scalar, scan it in
order, and use the first element that normalizes to a valid URL; absent
when nothing normalizes. -/
def firstNormSpec : List JsVal → Option String
  | [] => none
  | c :: rest =>
    match normalizeUrl (some c) with
    | some r => some r
    | none => firstNormSpec rest

/-- Spec-side definition of the `reference` projection, to be compared
with `referenceOf`. -/
def specReference (st : SemTemplate) : Option String :=
  let elems : List JsVal :=
    match st.sem_resolution_instruction with
    | some (.vArr xs) => xs
    | some v => [v]
    | none => []
  firstNormSpec elems


/-- C5: the severity bucketing maps scores 0.0, 0.6, 0.61, 0.89, 0.9 and
1.0 to Moderate, Moderate, Important, Important, Critical and Critical
respectively; more generally, scores at most 0.6 are Moderate, scores in
[0.61, 0.89] are Important and scores at least 0.9 are Critical. -/
theorem claim_c5 :
    getSeverityLabel (some (.num 0)) = .moderate ∧
    getSeverityLabel (some (.num (6/10))) = .moderate ∧
    getSeverityLabel (some (.num (61/100))) = .important ∧
    getSeverityLabel (some (.num (89/100))) = .important ∧
    getSeverityLabel (some (.num (9/10))) = .critical ∧
    getSeverityLabel (some (.num 1)) = .critical ∧
    (∀ q : ℚ, q ≤ 6/10 → getSeverityLabel (some (.num q)) = .moderate) ∧
    (∀ q : ℚ, 61/100 ≤ q → q ≤ 89/100 →
      getSeverityLabel (some (.num q)) = .important) ∧
    (∀ q : ℚ, 9/10 ≤ q → getSeverityLabel (some (.num q)) = .critical) := by
  refine ⟨?_, ?_, ?_, ?_, ?_, ?_, ?_, ?_, ?_⟩
  · norm_num [getSeverityLabel]
  · norm_num [getSeverityLabel]
  · norm_num [getSeverityLabel]
  · norm_num [getSeverityLabel]
  · norm_num [getSeverityLabel]
  · norm_num [getSeverityLabel]
  · intro q hq
    simp only [getSeverityLabel]
    split_ifs with h1 h2
    · linarith
    · linarith
    · rfl
  · intro q hq1 hq2
    simp only [getSeverityLabel]
    split_ifs with h1
    · linarith
    · rfl
  · intro q hq
    simp only [getSeverityLabel]
    split_ifs
    · rfl

/-- Witness for C5: the range clauses applied at the score 0.5. -/
theorem claim_c5_witness :
    getSeverityLabel (some (.num (1/2))) = .moderate :=
  claim_c5.2.2.2.2.2.2.1 (1/2) (by norm_num)

/-- C10: the duplicate check of the create route compares the raw
submitted header while the stored header is trimmed, so creating "A" and
then " A" both succeed (no 409) and the resulting document holds two
finding templates with the identical stored `sem_header` "A". -/
theorem claim_c10 :
    allHeaders <$>
      ((createStep (mkP "A") emptyDoc).bind (createStep (mkP " A"))) =
      some ["A", "A"] := by
  decide

/-- C8: when POST /api/issues answers 400 (validation) or 409 (conflict),
the persisted document is exactly the input document — the error is
decided before anything is written. -/
theorem claim_c8 (p : Payload) (d : IssueDocument)
    (h : (postRoute p d).1 = .badRequest ∨ (postRoute p d).1 = .conflict) :
    (postRoute p d).2 = d := by
  rcases hE : p.sem_header with _ | v
  · simp [postRoute, hE]
  · cases v with
    | vStr s =>
      by_cases hs : s = ""
      · simp [postRoute, hE, hs]
      · by_cases hc : (firstSub (ensureDoc d)).finding_templates.any
            (fun ft => ft.sem_template.sem_header == s)
        · simp [postRoute, hE, hs, hc]
        · simp [postRoute, hE, hs, hc] at h
    | vNum n => simp [postRoute, hE]
    | vArr xs => simp [postRoute, hE]

/-- Witness for C8: a create without a title is a 400 and leaves the
empty document untouched. -/
theorem claim_c8_witness :
    ((postRoute (mkP "") emptyDoc).1 = .badRequest ∨
      (postRoute (mkP "") emptyDoc).1 = .conflict) ∧
    (postRoute (mkP "") emptyDoc).2 = emptyDoc :=
  ⟨Or.inl rfl, claim_c8 (mkP "") emptyDoc (Or.inl rfl)⟩


/-- Helper for C9: a URL whose fetch throws yields its own
`ok: false, status: 0` entry. -/
theorem scrapeOne_thrown (fetch : String → FetchOutcome) (u : JsVal)
    (hne : jsTrim (jsToString (jsOrDefault (some u) (.vStr ""))) ≠ "")
    (h : fetch (jsTrim (jsToString (jsOrDefault (some u) (.vStr "")))) =
      .thrown) :
    scrapeOne fetch u =
      ⟨jsTrim (jsToString (jsOrDefault (some u) (.vStr ""))),
        false, some 0, none⟩ := by
  simp only [scrapeOne]
  rw [if_neg hne, h]

/-- C9: for any network behaviour in which fetching the non-URL string
"not a url" throws (as `fetch` does on an unparseable URL), scraping
["https://valid.example", "not a url"] yields a results array of length 2
whose second entry has `ok: false`; in general the batch never fails as a
whole and every submitted URL keeps its own entry (the results list has
exactly the length of the input list). -/
theorem claim_c9 (fetch : String → FetchOutcome)
    (hthrow : fetch "not a url" = .thrown) :
    (∃ rs, scrapeRoute fetch
        (some (.vArr [.vStr "https://valid.example", .vStr "not a url"])) =
        some rs ∧ rs.length = 2 ∧
        (rs.get? 1).map ScrapeEntry.ok = some false) ∧
    (∀ us : List JsVal, us ≠ [] →
      ∃ rs, scrapeRoute fetch (some (.vArr us)) = some rs ∧
        rs.length = us.length) := by
  constructor
  · refine ⟨_, rfl, rfl, ?_⟩
    have hu : jsTrim (jsToString
        (jsOrDefault (some (JsVal.vStr "not a url")) (.vStr ""))) =
        "not a url" := by decide
    have h2 : scrapeOne fetch (.vStr "not a url") =
        ⟨"not a url", false, some 0, none⟩ := by
      rw [scrapeOne_thrown fetch _ (by rw [hu]; decide)
        (by rw [hu]; exact hthrow), hu]
    simp [h2]
  · intro us hus
    have hE : us.isEmpty = false := by
      cases us with
      | nil => exact absurd rfl hus
      | cons a t => rfl
    exact ⟨us.map (scrapeOne fetch), by simp [scrapeRoute, hE], by simp⟩

/-- A concrete network stub: fetching "not a url" throws, everything else
succeeds. -/
def fetchStub : String → FetchOutcome :=
  fun s => if s = "not a url" then .thrown else .resp true 200 "page text"

/-- Witness for C9: the scrape scenario under the concrete stub. -/
theorem claim_c9_witness :
    fetchStub "not a url" = .thrown ∧
    ((∃ rs, scrapeRoute fetchStub
        (some (.vArr [.vStr "https://valid.example", .vStr "not a url"])) =
        some rs ∧ rs.length = 2 ∧
        (rs.get? 1).map ScrapeEntry.ok = some false) ∧
    (∀ us : List JsVal, us ≠ [] →
      ∃ rs, scrapeRoute fetchStub (some (.vArr us)) = some rs ∧
        rs.length = us.length)) :=
  ⟨rfl, claim_c9 fetchStub rfl⟩


/-- Payload refuting C6: a header plus an unparseable severity string and
an empty-string resolution instruction. -/
def pC6 : Payload :=
  ⟨some (.vStr "X"), none, some (.vStr "abc"), none, none, some (.vStr "")⟩

/-- Counterexample to C6 as stated: creating with
`severity_score: "abc"` stores `NaN` (the claim says unparseable input
becomes 0), and the scalar `sem_resolution_instruction: ""` is stored as
the empty array (the claim says a scalar is wrapped into a one-element
array). -/
theorem claim_c6_counterexample :
    (createdTemplate pC6 emptyDoc).map
      (fun st => (st.severity_score, st.sem_resolution_instruction)) =
      some (some .nan, some (.vArr [])) ∧
    JsNum.nan ≠ JsNum.num 0 ∧
    (JsVal.vArr [] : JsVal) ≠ .vArr [.vStr ""] := by
  refine ⟨rfl, by simp, by simp⟩

/-- C6 (amended): the stored template of a successful create has the
trimmed header; category "Configuration Changes" when none is supplied;
severity equal to the supplied number, 0 when the field is absent, and
the JavaScript numeric coercion of a supplied non-empty string — which is
NaN, not 0, when the string is unparseable; description defaulting to the
empty string; recommendations empty when the payload value is not an
array; and resolution instruction normalized to an array — a truthy
scalar is wrapped in a one-element array, while an absent (or falsy)
value becomes the empty array. -/
theorem claim_c6 (p : Payload) (h : String) (d : IssueDocument)
    (st : SemTemplate) (hh : p.sem_header = some (.vStr h))
    (hc : createdTemplate p d = some st) :
    st.sem_header = jsTrim h ∧
    (p.sem_category = none → st.sem_category = .vStr "Configuration Changes") ∧
    (∀ n, p.severity_score = some (.vNum n) → st.severity_score = some n) ∧
    (p.severity_score = none → st.severity_score = some (.num 0)) ∧
    (∀ s, p.severity_score = some (.vStr s) → s ≠ "" →
      st.severity_score = some (strToNumber s)) ∧
    (p.sem_long_description = none → st.sem_long_description = .vStr "") ∧
    ((∀ xs, p.sem_recommendations ≠ some (.vArr xs)) →
      st.sem_recommendations = []) ∧
    (∀ v, p.sem_resolution_instruction = some v → truthy v →
      (∀ xs, v ≠ .vArr xs) →
      st.sem_resolution_instruction = some (.vArr [v])) ∧
    (p.sem_resolution_instruction = none →
      st.sem_resolution_instruction = some (.vArr [])) := by
  have hst : st = buildTemplate h p := by
    unfold createdTemplate postRoute at hc
    rw [hh] at hc
    by_cases h0 : h = ""
    · simp [h0] at hc
    · by_cases hdup : (firstSub (ensureDoc d)).finding_templates.any
          (fun ft => ft.sem_template.sem_header == h)
      · simp [h0, hdup] at hc
      · simp [h0, hdup] at hc
        exact hc.symm
  subst hst
  refine ⟨rfl, ?_, ?_, ?_, ?_, ?_, ?_, ?_, ?_⟩
  · intro hcat; simp [buildTemplate, hcat, jsOrDefault]
  · intro n hn; simp [buildTemplate, hn]
  · intro hn; simp [buildTemplate, hn, jsOrDefault, jsNumber]
  · intro s hs hne
    simp [buildTemplate, hs, jsOrDefault, truthy, hne, jsNumber]
  · intro hd; simp [buildTemplate, hd, jsOrDefault]
  · intro hr
    rcases hv : p.sem_recommendations with _ | v
    · simp [buildTemplate, hv]
    · cases v with
      | vStr s => simp [buildTemplate, hv]
      | vNum n => simp [buildTemplate, hv]
      | vArr xs => exact absurd hv (hr xs)
  · intro v hv htr hnarr
    simp only [buildTemplate, hv]
    cases v with
    | vStr s => simp [htr]
    | vNum n => simp [htr]
    | vArr xs => exact absurd rfl (hnarr xs)
  · intro hv; simp [buildTemplate, hv]

/-- Witness for C6: the amended defaults evaluated on the minimal
payload `{sem_header: "T"}` against the empty document. -/
theorem claim_c6_witness :
    (mkP "T").sem_header = some (.vStr "T") ∧
    createdTemplate (mkP "T") emptyDoc = some (buildTemplate "T" (mkP "T")) ∧
    ((buildTemplate "T" (mkP "T")).sem_header = jsTrim "T" ∧
    ((mkP "T").sem_category = none →
      (buildTemplate "T" (mkP "T")).sem_category =
        .vStr "Configuration Changes") ∧
    (∀ n, (mkP "T").severity_score = some (.vNum n) →
      (buildTemplate "T" (mkP "T")).severity_score = some n) ∧
    ((mkP "T").severity_score = none →
      (buildTemplate "T" (mkP "T")).severity_score = some (.num 0)) ∧
    (∀ s, (mkP "T").severity_score = some (.vStr s) → s ≠ "" →
      (buildTemplate "T" (mkP "T")).severity_score =
        some (strToNumber s)) ∧
    ((mkP "T").sem_long_description = none →
      (buildTemplate "T" (mkP "T")).sem_long_description = .vStr "") ∧
    ((∀ xs, (mkP "T").sem_recommendations ≠ some (.vArr xs)) →
      (buildTemplate "T" (mkP "T")).sem_recommendations = []) ∧
    (∀ v, (mkP "T").sem_resolution_instruction = some v → truthy v →
      (∀ xs, v ≠ .vArr xs) →
      (buildTemplate "T" (mkP "T")).sem_resolution_instruction =
        some (.vArr [v])) ∧
    ((mkP "T").sem_resolution_instruction = none →
      (buildTemplate "T" (mkP "T")).sem_resolution_instruction =
        some (.vArr []))) :=
  ⟨rfl, rfl, claim_c6 (mkP "T") "T" emptyDoc (buildTemplate "T" (mkP "T"))
    rfl rfl⟩


/-- Shape lemma: inserting into an ensured document leaves it ensured. -/
theorem ensureDoc_insert (d : IssueDocument) (ft : FindingTemplate) :
    ensureDoc (insertFirstSub (ensureDoc d) ft) =
      insertFirstSub (ensureDoc d) ft := by
  rcases d with ⟨secs⟩
  cases secs with
  | nil => rfl
  | cons s rest =>
    rcases s with ⟨t, subs⟩
    cases subs with
    | nil => rfl
    | cons sb sbs => rfl

/-- Shape lemma: the create target of an ensured document after an insert
holds the previous templates with the new one appended. -/
theorem firstSub_insert (d : IssueDocument) (ft : FindingTemplate) :
    (firstSub (insertFirstSub (ensureDoc d) ft)).finding_templates =
      (firstSub (ensureDoc d)).finding_templates ++ [ft] := by
  rcases d with ⟨secs⟩
  cases secs with
  | nil => rfl
  | cons s rest =>
    rcases s with ⟨t, subs⟩
    cases subs with
    | nil => rfl
    | cons sb sbs => rfl

/-- A document whose header "h" lives in the second sub-section — outside
the create target. -/
def d2C1 : IssueDocument :=
  ⟨[⟨"S", [⟨"T1", []⟩,
    ⟨"T2", [⟨⟨"h", .vStr "c", some (.num 0), .vStr "", [], none⟩⟩]⟩]⟩]⟩

/-- Counterexample to C1 as stated: the duplicate check is not global —
creating "h" on a document that already holds "h" in its second
sub-section succeeds (201, not 409); and the check compares the raw
header — creating " A " twice in a row succeeds both times. -/
theorem claim_c1_counterexample :
    hasHeader d2C1 "h" = true ∧
    (postRoute (mkP "h") d2C1).1.isCreated = true ∧
    ((createStep (mkP " A ") emptyDoc).bind
      (fun d => createStep (mkP " A ") d)).isSome = true := by
  refine ⟨rfl, rfl, by decide⟩

/-- C1 (amended): if Create with a header that carries no surrounding
whitespace succeeds, a second Create with the same header on the
resulting document fails with ConflictError; the duplicate check compares
the raw submitted header against the templates of the first sub-section
of the first section only — a matching header elsewhere in the document,
or one differing only by surrounding whitespace, does not conflict. -/
theorem claim_c1 (d : IssueDocument) (h : String) (d1 : IssueDocument)
    (htrim : jsTrim h = h) (hc : createStep (mkP h) d = some d1) :
    (postRoute (mkP h) d1).1 = .conflict := by
  unfold createStep postRoute at hc
  simp only [mkP] at hc
  by_cases h0 : h = ""
  · simp [h0] at hc
  · by_cases hdup : (firstSub (ensureDoc d)).finding_templates.any
        (fun ft => ft.sem_template.sem_header == h)
    · simp [h0, hdup] at hc
    · simp [h0, hdup] at hc
      rw [← hc]
      unfold postRoute
      simp only [mkP, ensureDoc_insert, firstSub_insert]
      rw [if_neg h0]
      simp [List.any_append, buildTemplate, htrim]

/-- Witness for C1: creating "A" on the empty document and then creating
"A" again yields the 409. -/
theorem claim_c1_witness :
    jsTrim "A" = "A" ∧
    createStep (mkP "A") emptyDoc =
      some (insertFirstSub (ensureDoc emptyDoc)
        ⟨buildTemplate "A" (mkP "A")⟩) ∧
    (postRoute (mkP "A") (insertFirstSub (ensureDoc emptyDoc)
      ⟨buildTemplate "A" (mkP "A")⟩)).1 = .conflict :=
  ⟨by decide, rfl, claim_c1 emptyDoc "A" _ (by decide) rfl⟩


/-- A document with a single section, single sub-section and single
finding template "A". -/
def dSing : IssueDocument :=
  ⟨[⟨"S", [⟨"T", [⟨⟨"A", .vStr "c", some (.num 0), .vStr "", [], none⟩⟩]⟩]⟩]⟩

/-- Counterexample to C2 as stated: the DELETE route of the main server
performs no pruning — deleting the only template of the only sub-section
of the only section succeeds but persists a document that still holds the
section and its now-empty sub-section (not `sections = []`). -/
theorem claim_c2_counterexample :
    deleteIssue "A" dSing = some ⟨[⟨"S", [⟨"T", []⟩]⟩]⟩ ∧
    ∃ sec, sec ∈ (⟨[⟨"S", [⟨"T", []⟩]⟩]⟩ : IssueDocument).sections ∧
      ∃ sub ∈ sec.sub_sections, sub.finding_templates = [] := by
  refine ⟨rfl, ⟨_, List.mem_singleton.mpr rfl, _,
    List.mem_singleton.mpr rfl, rfl⟩⟩

/-- C2 (amended): the pruning behaviour belongs to the `deleteByTitle`
variant of the earlier server revision — after it runs, no section is
left without sub-sections and no sub-section without finding templates
(sub-sections are pruned first, then sections), and deleting the only
template of the only sub-section of the only section yields
`sections = []`; the DELETE route of the main server performs no pruning
(see the counterexample). -/
theorem claim_c2 :
    (∀ d title sec, sec ∈ (deleteByTitle d title).2.sections →
      sec.sub_sections ≠ [] ∧
      ∀ sub ∈ sec.sub_sections, sub.finding_templates ≠ []) ∧
    deleteByTitle dSing "A" = (true, ⟨[]⟩) := by
  constructor
  · intro d title sec hsec
    simp only [deleteByTitle] at hsec
    rcases List.mem_filter.mp hsec with ⟨hmem, hlen⟩
    simp only [decide_eq_true_eq] at hlen
    refine ⟨List.length_pos.mp hlen, ?_⟩
    rcases List.mem_map.mp hmem with ⟨sec0, hsec0, rfl⟩
    intro sub hsub
    rcases List.mem_filter.mp hsub with ⟨hmem2, hlen2⟩
    simp only [decide_eq_true_eq] at hlen2
    exact List.length_pos.mp hlen2
  · rfl

/-- A second template "B", kept alive by the delete of "A". -/
def tplBC2 : SemTemplate := ⟨"B", .vStr "c", some (.num 0), .vStr "", [], none⟩

/-- A document whose only sub-section holds the templates "A" and "B". -/
def dTwoC2 : IssueDocument :=
  ⟨[⟨"S", [⟨"T", [⟨⟨"A", .vStr "c", some (.num 0), .vStr "", [], none⟩⟩,
    ⟨tplBC2⟩]⟩]⟩]⟩

/-- Witness for C2: after `deleteByTitle` removes "A", the surviving
section has a non-empty sub-section list and its sub-section still holds
templates. -/
theorem claim_c2_witness :
    (⟨"S", [⟨"T", [⟨tplBC2⟩]⟩]⟩ : Section) ∈
      (deleteByTitle dTwoC2 "A").2.sections ∧
    ((⟨"S", [⟨"T", [⟨tplBC2⟩]⟩]⟩ : Section).sub_sections ≠ [] ∧
      ∀ sub ∈ (⟨"S", [⟨"T", [⟨tplBC2⟩]⟩]⟩ : Section).sub_sections,
        sub.finding_templates ≠ []) :=
  ⟨show _ ∈ [(⟨"S", [⟨"T", [⟨tplBC2⟩]⟩]⟩ : Section)] from
      List.mem_singleton.mpr rfl,
    claim_c2.1 dTwoC2 "A" _
      (show _ ∈ [(⟨"S", [⟨"T", [⟨tplBC2⟩]⟩]⟩ : Section)] from
        List.mem_singleton.mpr rfl)⟩


/-- The create target of a document without header `h` holds no template
with header `h`. -/
theorem hasHeader_false_firstSub (d : IssueDocument) (h : String)
    (hH : hasHeader d h = false) :
    (firstSub (ensureDoc d)).finding_templates.any
      (fun ft => ft.sem_template.sem_header == h) = false := by
  rcases d with ⟨secs⟩
  cases secs with
  | nil => rfl
  | cons s rest =>
    rcases s with ⟨t, subs⟩
    cases subs with
    | nil => rfl
    | cons sb sbs =>
      simp only [hasHeader, List.any_cons, Bool.or_eq_false_iff] at hH
      exact hH.1.1

/-- Creating a fresh non-empty header succeeds and appends the built
template to the first sub-section. -/
theorem createStep_eq (d : IssueDocument) (h : String)
    (hH : hasHeader d h = false) (h0 : h ≠ "") :
    createStep (mkP h) d =
      some (insertFirstSub (ensureDoc d) ⟨buildTemplate h (mkP h)⟩) := by
  simp [createStep, postRoute, mkP, h0, hasHeader_false_firstSub d h hH]

/-- The PUT scan over a template list whose only match sits at the end
patches exactly that template. -/
theorem putFTs_append (id : String) (p : Payload)
    (l : List FindingTemplate) (ft0 : FindingTemplate)
    (hl : ∀ ft ∈ l, ft.sem_template.sem_header ≠ id)
    (hft : ft0.sem_template.sem_header = id) :
    putFTs id p (l ++ [ft0]) =
      some (putTpl p ft0.sem_template,
        l ++ [⟨putTpl p ft0.sem_template⟩]) := by
  induction l with
  | nil => simp [putFTs, hft]
  | cons a t ih =>
    have ha : (a.sem_template.sem_header == id) = false := by
      simp [hl a (List.mem_cons_self a t)]
    simp only [List.cons_append, putFTs, ha, Bool.false_eq_true, if_false,
      List.append_eq]
    rw [ih (fun ft hft2 => hl ft (List.mem_cons_of_mem a hft2))]

/-- Updating the just-inserted template of a document that held no other
template with that header patches it in place. -/
theorem put_insert (d : IssueDocument) (p : Payload) (ft0 : FindingTemplate)
    (id : String) (hhdr : ft0.sem_template.sem_header = id)
    (hno : hasHeader d id = false) :
    putIssue id p (insertFirstSub (ensureDoc d) ft0) =
      some (putTpl p ft0.sem_template,
        insertFirstSub (ensureDoc d) ⟨putTpl p ft0.sem_template⟩) := by
  rcases d with ⟨secs⟩
  cases secs with
  | nil =>
    simp [putIssue, putSecs, putSubs, putFTs, hhdr, insertFirstSub, ensureDoc]
  | cons s rest =>
    rcases s with ⟨t, subs⟩
    cases subs with
    | nil =>
      simp [putIssue, putSecs, putSubs, putFTs, hhdr, insertFirstSub,
        ensureDoc]
    | cons sb sbs =>
      have hl : ∀ ft ∈ sb.finding_templates,
          ft.sem_template.sem_header ≠ id := by
        simp only [hasHeader, List.any_cons, Bool.or_eq_false_iff,
          List.any_eq_false, beq_iff_eq] at hno
        exact hno.1.1
      simp only [ensureDoc, insertFirstSub, putIssue, putSecs, putSubs]
      rw [putFTs_append id p sb.finding_templates ft0 hl hhdr]

/-- Inserting a template adds exactly its header to the document. -/
theorem hasHeader_insert (d : IssueDocument) (ft : FindingTemplate)
    (x : String) :
    hasHeader (insertFirstSub (ensureDoc d) ft) x =
      (hasHeader d x || (ft.sem_template.sem_header == x)) := by
  rcases d with ⟨secs⟩
  cases secs with
  | nil => simp [hasHeader, insertFirstSub, ensureDoc]
  | cons s rest =>
    rcases s with ⟨t, subs⟩
    cases subs with
    | nil =>
      simp [hasHeader, insertFirstSub, ensureDoc, List.any_cons,
        Bool.or_comm, Bool.or_assoc, Bool.or_left_comm]
    | cons sb sbs =>
      simp [hasHeader, insertFirstSub, ensureDoc, List.any_cons,
        List.any_append, Bool.or_comm, Bool.or_assoc, Bool.or_left_comm]

/-- Removing the matching templates strictly shrinks a list that
contains one. -/
theorem filter_ne_lt (id : String) (l : List FindingTemplate)
    (hex : ∃ ft ∈ l, ft.sem_template.sem_header = id) :
    (l.filter fun ft => ft.sem_template.sem_header != id).length <
      l.length := by
  induction l with
  | nil => simp at hex
  | cons a t ih =>
    rcases hex with ⟨ft, hmem, hft⟩
    rcases List.mem_cons.mp hmem with rfl | hmem2
    · have hpred : (ft.sem_template.sem_header != id) = false := by
        simp [hft]
      have hle := List.length_filter_le
        (fun ft => ft.sem_template.sem_header != id) t
      simp only [List.filter_cons, hpred, Bool.false_eq_true, if_false,
        List.length_cons]
      omega
    · by_cases ha : (a.sem_template.sem_header != id) = true
      · have hlt := ih ⟨ft, hmem2, hft⟩
        simp only [List.filter_cons, ha, if_true, List.length_cons]
        omega
      · have hle := List.length_filter_le
          (fun ft => ft.sem_template.sem_header != id) t
        simp only [List.filter_cons, ha, Bool.false_eq_true, if_false,
          List.length_cons]
        omega

/-- DELETE finds nothing among sub-sections without the header. -/
theorem delSubs_none (id : String) (subs : List SubSection)
    (h : ∀ sub ∈ subs, ∀ ft ∈ sub.finding_templates,
      ft.sem_template.sem_header ≠ id) :
    delSubs id subs = none := by
  induction subs with
  | nil => rfl
  | cons sb t ih =>
    have hfil : sb.finding_templates.filter
        (fun ft => ft.sem_template.sem_header != id) =
        sb.finding_templates := by
      rw [List.filter_eq_self]
      intro ft hft
      simp [h sb (List.mem_cons_self sb t) ft hft]
    have hrest := ih (fun sub hs ft hft =>
      h sub (List.mem_cons_of_mem sb hs) ft hft)
    simp [delSubs, hfil, hrest]

/-- DELETE succeeds on sub-sections containing the header. -/
theorem delSubs_isSome (id : String) (subs : List SubSection)
    (h : ∃ sub ∈ subs, ∃ ft ∈ sub.finding_templates,
      ft.sem_template.sem_header = id) :
    (delSubs id subs).isSome = true := by
  induction subs with
  | nil => simp at h
  | cons sb t ih =>
    by_cases hsb : ∃ ft ∈ sb.finding_templates,
        ft.sem_template.sem_header = id
    · have hlt := filter_ne_lt id sb.finding_templates hsb
      simp only [delSubs]
      rw [if_pos (by omega)]
      simp
    · rcases h with ⟨sub, hmem, hsub⟩
      rcases List.mem_cons.mp hmem with rfl | hmem2
      · exact absurd hsub hsb
      · simp only [delSubs]
        by_cases hc : (sb.finding_templates.filter
            (fun ft => ft.sem_template.sem_header != id)).length ≠
            sb.finding_templates.length
        · rw [if_pos hc]; simp
        · rw [if_neg hc]
          rcases Option.isSome_iff_exists.mp (ih ⟨sub, hmem2, hsub⟩) with
            ⟨v, hv⟩
          rw [hv]
          simp

/-- DELETE finds nothing in sections without the header. -/
theorem delSecs_none (id : String) (secs : List Section)
    (h : ∀ sec ∈ secs, ∀ sub ∈ sec.sub_sections,
      ∀ ft ∈ sub.finding_templates, ft.sem_template.sem_header ≠ id) :
    delSecs id secs = none := by
  induction secs with
  | nil => rfl
  | cons sec t ih =>
    have h1 := delSubs_none id sec.sub_sections
      (fun sub hs => h sec (List.mem_cons_self sec t) sub hs)
    have hrest := ih (fun s hs => h s (List.mem_cons_of_mem sec hs))
    simp [delSecs, h1, hrest]

/-- DELETE succeeds on sections containing the header. -/
theorem delSecs_isSome (id : String) (secs : List Section)
    (h : ∃ sec ∈ secs, ∃ sub ∈ sec.sub_sections,
      ∃ ft ∈ sub.finding_templates, ft.sem_template.sem_header = id) :
    (delSecs id secs).isSome = true := by
  induction secs with
  | nil => simp at h
  | cons sec t ih =>
    by_cases hsec : ∃ sub ∈ sec.sub_sections,
        ∃ ft ∈ sub.finding_templates, ft.sem_template.sem_header = id
    · rcases Option.isSome_iff_exists.mp (delSubs_isSome id
        sec.sub_sections hsec) with ⟨v, hv⟩
      simp [delSecs, hv]
    · rcases h with ⟨s1, hmem, hs1⟩
      rcases List.mem_cons.mp hmem with rfl | hmem2
      · exact absurd hs1 hsec
      · simp only [delSecs]
        rcases hds : delSubs id sec.sub_sections with _ | v
        · rcases Option.isSome_iff_exists.mp (ih ⟨s1, hmem2, hs1⟩) with
            ⟨w, hw⟩
          rw [hw]
          simp
        · simp

/-- The DELETE route 404s exactly when the header is absent. -/
theorem deleteIssue_none (id : String) (d : IssueDocument)
    (hH : hasHeader d id = false) : deleteIssue id d = none := by
  simp only [hasHeader, List.any_eq_false, Bool.not_eq_true,
    beq_iff_eq] at hH
  have := delSecs_none id d.sections (by
    intro sec hsec sub hsub ft hft
    exact (hH sec hsec sub hsub ft hft))
  simp [deleteIssue, this]

/-- The DELETE route succeeds when the header is present. -/
theorem deleteIssue_isSome (id : String) (d : IssueDocument)
    (hH : hasHeader d id = true) : (deleteIssue id d).isSome = true := by
  simp only [hasHeader, List.any_eq_true, beq_iff_eq] at hH
  rcases Option.isSome_iff_exists.mp (delSecs_isSome id d.sections hH) with
    ⟨v, hv⟩
  simp [deleteIssue, hv]

/-- C3: on any document not yet containing the header "A", creating "A",
then updating it to "B", changes its identity for the lookups that
follow — DELETE /issues/A answers 404 while DELETE /issues/B answers 200
(the route echoes the requested id "B" as the deleted id). -/
theorem claim_c3 (d : IssueDocument) (hA : hasHeader d "A" = false) :
    ∃ d1 st d2, createStep (mkP "A") d = some d1 ∧
      putIssue "A" (mkP "B") d1 = some (st, d2) ∧
      st.sem_header = "B" ∧
      deleteIssue "A" d2 = none ∧
      (deleteIssue "B" d2).isSome = true := by
  have h0 : ("A" : String) ≠ "" := by decide
  have hhdr : (FindingTemplate.mk (buildTemplate "A" (mkP "A"))
      ).sem_template.sem_header = "A" := by decide
  refine ⟨insertFirstSub (ensureDoc d) ⟨buildTemplate "A" (mkP "A")⟩,
    putTpl (mkP "B") (buildTemplate "A" (mkP "A")),
    insertFirstSub (ensureDoc d)
      ⟨putTpl (mkP "B") (buildTemplate "A" (mkP "A"))⟩,
    createStep_eq d "A" hA h0,
    put_insert d (mkP "B") ⟨buildTemplate "A" (mkP "A")⟩ "A" hhdr hA,
    by decide, ?_, ?_⟩
  · apply deleteIssue_none
    rw [hasHeader_insert]
    have hBA : ((putTpl (mkP "B") (buildTemplate "A" (mkP "A"))
        ).sem_header == "A") = false := by decide
    simp [hA, hBA]
  · apply deleteIssue_isSome
    rw [hasHeader_insert]
    have hBB : ((putTpl (mkP "B") (buildTemplate "A" (mkP "A"))
        ).sem_header == "B") = true := by decide
    simp [hBB]

/-- Witness for C3: the scenario run from the empty document. -/
theorem claim_c3_witness :
    hasHeader emptyDoc "A" = false ∧
    (∃ d1 st d2, createStep (mkP "A") emptyDoc = some d1 ∧
      putIssue "A" (mkP "B") d1 = some (st, d2) ∧
      st.sem_header = "B" ∧
      deleteIssue "A" d2 = none ∧
      (deleteIssue "B" d2).isSome = true) :=
  ⟨rfl, claim_c3 emptyDoc rfl⟩


/-- The decimal digits of a natural are never empty. -/
theorem natReprAux_ne_nil (fuel n : ℕ) : natReprAux (fuel + 1) n ≠ [] := by
  simp only [natReprAux]
  split_ifs
  · simp
  · simp

/-- The decimal characters of an integer are never empty. -/
theorem intChars_ne_nil (i : ℤ) : intChars i ≠ [] := by
  unfold intChars
  split_ifs
  · simp
  · exact natReprAux_ne_nil _ _

/-- The rendering of a rational is never the empty string. -/
theorem ratToString_ne_empty (q : ℚ) : ratToString q ≠ "" := by
  unfold ratToString
  intro hEq
  have hdata : intChars q.num ++
      (if q.den = 1 then [] else '/' :: natReprAux (q.den + 1) q.den) =
      ([] : List Char) := congrArg String.data hEq
  rcases List.append_eq_nil.mp hdata with ⟨h1, h2⟩
  exact intChars_ne_nil _ h1

/-- The rendering of a number is never the empty string. -/
theorem numToString_ne_empty (n : JsNum) : numToString n ≠ "" := by
  cases n with
  | nan => decide
  | num q => exact ratToString_ne_empty q

/-- Trimming the empty string yields the empty string. -/
theorem jsTrim_empty : jsTrim "" = "" := rfl

/-- Normalizing the stringification of a value gives the same reference
as normalizing the value directly (the two call shapes of `normalizeUrl`
inside `extractIssues`). -/
theorem normalizeUrl_stringify (v : JsVal) :
    normalizeUrl (some (.vStr (jsToString v))) = normalizeUrl (some v) := by
  cases v with
  | vStr s => rfl
  | vNum n =>
    cases n with
    | nan => decide
    | num q =>
      by_cases hq : q = 0
      · subst hq; decide
      · have hne : numToString (.num q) ≠ "" := numToString_ne_empty _
        simp [normalizeUrl, jsToString, truthy, hne, hq]
  | vArr xs =>
    by_cases hx : jsToStringList xs = ""
    · simp [normalizeUrl, jsToString, truthy, hx, jsTrim_empty]
    · simp [normalizeUrl, jsToString, truthy, hx]

/-- The source's first-normalizing scan agrees with the spec's. -/
theorem firstNorm_eq_spec (xs : List JsVal) :
    firstNorm xs = firstNormSpec xs := by
  induction xs with
  | nil => rfl
  | cons c t ih =>
    cases hn : normalizeUrl (some c) with
    | some r => simp [firstNorm, firstNormSpec, normalizeUrl_stringify, hn]
    | none =>
      simp [firstNorm, firstNormSpec, normalizeUrl_stringify, hn, ih]

/-- C7: for every stored template, the projected `reference` is exactly
the spec's description — the first element of the resolution-instruction
field, coerced to a sequence when scalar, that normalizes to a valid URL
(absent when none does); and the normalization accepts an
`http://`/`https://`-prefixed string as-is, prefixes a bare domain-like
string with `https://`, and rejects anything else. -/
theorem claim_c7 :
    (∀ st : SemTemplate, referenceOf st = specReference st) ∧
    normalizeUrl (some (.vStr "https://a.b/c")) = some "https://a.b/c" ∧
    normalizeUrl (some (.vStr "learn.example.com/path")) =
      some "https://learn.example.com/path" ∧
    normalizeUrl (some (.vStr "not a url")) = none := by
  refine ⟨?_, by decide, by decide, by decide⟩
  intro st
  rcases hr : st.sem_resolution_instruction with _ | v
  · simp [referenceOf, specReference, hr, firstNormSpec, normalizeUrl]
  · cases v with
    | vArr xs => simp [referenceOf, specReference, hr, firstNorm_eq_spec]
    | vStr s =>
      simp only [referenceOf, specReference, hr, firstNormSpec]
      cases hn : normalizeUrl (some (.vStr s)) <;> simp [hn]
    | vNum n =>
      simp only [referenceOf, specReference, hr, firstNormSpec]
      cases hn : normalizeUrl (some (.vNum n)) <;> simp [hn]


/-- The template stored by a create call carrying only a title. -/
def defTemplate (h : String) : SemTemplate := buildTemplate h (mkP h)

/-- The document shape every empty-store create sequence produces: the
default section and sub-section wrapping the given templates. -/
def docW (ts : List FindingTemplate) : IssueDocument :=
  ⟨[⟨"Default Section", [⟨"Default Subsection", ts⟩]⟩]⟩

/-- The display issues expected for a run of title-only creates starting
at push position `k`. -/
def mkDisplay (gen : ℕ → String) : List String → ℕ → List Issue
  | [], _ => []
  | h :: t, k => mkIssue gen k (defTemplate h) :: mkDisplay gen t (k + 1)

/-- A create of a fresh header on the default-shaped document appends the
default template. -/
theorem createStep_docW (h : String) (ts : List FindingTemplate)
    (h0 : h ≠ "")
    (hno : ts.any (fun ft => ft.sem_template.sem_header == h) = false) :
    createStep (mkP h) (docW ts) =
      some (docW (ts ++ [⟨defTemplate h⟩])) := by
  simp [createStep, postRoute, mkP, docW, ensureDoc, firstSub,
    insertFirstSub, h0, hno, defTemplate]

/-- A run of creates with good, pairwise-distinct headers disjoint from
the existing templates appends them all in order. -/
theorem createMany_docW (hs : List String) (ts : List FindingTemplate)
    (hgood : ∀ h ∈ hs, h ≠ "" ∧ jsTrim h = h) (hnd : hs.Nodup)
    (hdisj : ∀ h ∈ hs, ∀ ft ∈ ts, ft.sem_template.sem_header ≠ h) :
    createMany hs (docW ts) =
      some (docW (ts ++ hs.map (fun h => ⟨defTemplate h⟩))) := by
  induction hs generalizing ts with
  | nil => simp [createMany]
  | cons h t ih =>
    have h0 := (hgood h (List.mem_cons_self h t)).1
    have htr := (hgood h (List.mem_cons_self h t)).2
    have hno : ts.any (fun ft => ft.sem_template.sem_header == h) = false := by
      simp only [List.any_eq_false, beq_iff_eq]
      exact fun ft hft => hdisj h (List.mem_cons_self h t) ft hft
    have hdisj2 : ∀ h2 ∈ t, ∀ ft ∈ ts ++ [(⟨defTemplate h⟩ : FindingTemplate)],
        ft.sem_template.sem_header ≠ h2 := by
      intro h2 hm ft hft
      rcases List.mem_append.mp hft with hft1 | hft2
      · exact hdisj h2 (List.mem_cons_of_mem h hm) ft hft1
      · rcases List.mem_singleton.mp hft2 with rfl
        show (defTemplate h).sem_header ≠ h2
        have hdt : (defTemplate h).sem_header = h := by
          simp [defTemplate, buildTemplate, htr]
        rw [hdt]
        intro hEq
        exact (List.nodup_cons.mp hnd).1 (hEq ▸ hm)
    simp only [createMany, createStep_docW h ts h0 hno]
    rw [ih (ts ++ [(⟨defTemplate h⟩ : FindingTemplate)])
      (fun h2 hm => hgood h2 (List.mem_cons_of_mem h hm))
      (List.Nodup.of_cons hnd) hdisj2]
    simp


/-- The template loop of `extractIssues` on fresh created templates
pushes one display issue per header, in order. -/
theorem extractFTs_fresh (gen : ℕ → String) (hs : List String)
    (seen : List String) (out : List Issue)
    (hgood : ∀ h ∈ hs, h ≠ "" ∧ jsTrim h = h) (hnd : hs.Nodup)
    (hseen : ∀ h ∈ hs, h ∉ seen) :
    extractFTs gen (hs.map (fun h => ⟨defTemplate h⟩)) seen out =
      (hs.reverse ++ seen, out ++ mkDisplay gen hs out.length) := by
  induction hs generalizing seen out with
  | nil => simp [extractFTs, mkDisplay]
  | cons h t ih =>
    have h0 := (hgood h (List.mem_cons_self h t)).1
    have htr := (hgood h (List.mem_cons_self h t)).2
    have hname : (defTemplate h).sem_header = h := by
      simp [defTemplate, buildTemplate, htr]
    simp only [List.map_cons, extractFTs, hname]
    rw [if_neg (by
      push_neg
      exact ⟨h0, hseen h (List.mem_cons_self h t)⟩)]
    rw [ih (h :: seen) (out ++ [mkIssue gen out.length (defTemplate h)])
      (fun h2 hm => hgood h2 (List.mem_cons_of_mem h hm))
      (List.Nodup.of_cons hnd)
      (by
        intro h2 hm hin
        rcases List.mem_cons.mp hin with rfl | hin2
        · exact (List.nodup_cons.mp hnd).1 hm
        · exact hseen h2 (List.mem_cons_of_mem h hm) hin2)]
    simp [mkDisplay, List.append_assoc]


/-- Flattening the document built by a run of creates yields exactly the
expected display list. -/
theorem extract_docW (gen : ℕ → String) (hs : List String)
    (hgood : ∀ h ∈ hs, h ≠ "" ∧ jsTrim h = h) (hnd : hs.Nodup) :
    extractIssues gen (docW (hs.map (fun h => ⟨defTemplate h⟩))) =
      mkDisplay gen hs 0 := by
  unfold extractIssues docW
  simp only [extractSecs, extractSubs]
  rw [extractFTs_fresh gen hs [] [] hgood hnd (by simp)]
  simp [extractSecs, extractSubs]

/-- The expected display list has one entry per header. -/
theorem mkDisplay_length (gen : ℕ → String) (hs : List String) (k : ℕ) :
    (mkDisplay gen hs k).length = hs.length := by
  induction hs generalizing k with
  | nil => rfl
  | cons h t ih => simp [mkDisplay, ih]

/-- The expected display names are the submitted headers, in order. -/
theorem mkDisplay_map_name (gen : ℕ → String) (hs : List String) (k : ℕ)
    (hgood : ∀ h ∈ hs, jsTrim h = h) :
    (mkDisplay gen hs k).map Issue.name = hs := by
  induction hs generalizing k with
  | nil => rfl
  | cons h t ih =>
    have htr := hgood h (List.mem_cons_self h t)
    simp only [mkDisplay, List.map_cons]
    rw [ih (k + 1) (fun h2 hm => hgood h2 (List.mem_cons_of_mem h hm))]
    simp [mkIssue, defTemplate, buildTemplate, htr]

/-- The expected display ids are the headers suffixed with a dash and
the random run for their position. -/
theorem mkDisplay_map_id (gen : ℕ → String) (hs : List String) (k : ℕ)
    (hgood : ∀ h ∈ hs, jsTrim h = h) :
    (mkDisplay gen hs k).map Issue.id =
      List.zipWith (fun h j => h ++ "-" ++ gen j) hs
        (List.range' k hs.length) := by
  induction hs generalizing k with
  | nil => rfl
  | cons h t ih =>
    have htr := hgood h (List.mem_cons_self h t)
    simp only [mkDisplay, List.map_cons, List.length_cons, List.range',
      List.zipWith_cons_cons]
    rw [ih (k + 1) (fun h2 hm => hgood h2 (List.mem_cons_of_mem h hm))]
    simp [mkIssue, defTemplate, buildTemplate, htr]

/-- No expected display id equals its name (the dash and suffix make it
strictly longer). -/
theorem mkDisplay_id_ne_name (gen : ℕ → String) (hs : List String) (k : ℕ) :
    ∀ i ∈ mkDisplay gen hs k, i.id ≠ i.name := by
  induction hs generalizing k with
  | nil => simp [mkDisplay]
  | cons h t ih =>
    intro i hi
    rcases List.mem_cons.mp hi with rfl | hi2
    · simp only [mkIssue]
      intro hEq
      have hlen := congrArg String.length hEq
      have hdash : ("-" : String).length = 1 := rfl
      simp only [String.length_append, hdash] at hlen
      omega
    · exact ih (k + 1) i hi2


/-- The seen-set of the template loop keeps projected names unique. -/
theorem extractFTs_names (gen : ℕ → String) (fts : List FindingTemplate)
    (seen : List String) (out : List Issue)
    (h1 : (out.map Issue.name).Nodup)
    (h2 : ∀ n ∈ out.map Issue.name, n ∈ seen) :
    ((extractFTs gen fts seen out).2.map Issue.name).Nodup ∧
    (∀ n ∈ (extractFTs gen fts seen out).2.map Issue.name,
      n ∈ (extractFTs gen fts seen out).1) := by
  induction fts generalizing seen out with
  | nil => exact ⟨h1, h2⟩
  | cons ft rest ih =>
    simp only [extractFTs]
    by_cases hc : ft.sem_template.sem_header = "" ∨
        ft.sem_template.sem_header ∈ seen
    · rw [if_pos hc]
      exact ih seen out h1 h2
    · rw [if_neg hc]
      push_neg at hc
      apply ih
      · simp only [List.map_append, List.map_cons, List.map_nil, mkIssue]
        rw [List.nodup_append]
        refine ⟨h1, List.nodup_singleton _, ?_⟩
        intro n hn hn2
        rcases List.mem_singleton.mp hn2 with rfl
        exact hc.2 (h2 _ hn)
      · intro n hn
        simp only [List.map_append, List.map_cons, List.map_nil,
          mkIssue] at hn
        rcases List.mem_append.mp hn with hn1 | hn2
        · exact List.mem_cons_of_mem _ (h2 n hn1)
        · rcases List.mem_singleton.mp hn2 with rfl
          exact List.mem_cons_self _ _

/-- The sub-section loop preserves the name-uniqueness invariant. -/
theorem extractSubs_names (gen : ℕ → String) (subs : List SubSection)
    (seen : List String) (out : List Issue)
    (h1 : (out.map Issue.name).Nodup)
    (h2 : ∀ n ∈ out.map Issue.name, n ∈ seen) :
    ((extractSubs gen subs seen out).2.map Issue.name).Nodup ∧
    (∀ n ∈ (extractSubs gen subs seen out).2.map Issue.name,
      n ∈ (extractSubs gen subs seen out).1) := by
  induction subs generalizing seen out with
  | nil => exact ⟨h1, h2⟩
  | cons sb rest ih =>
    simp only [extractSubs]
    have hft := extractFTs_names gen sb.finding_templates seen out h1 h2
    exact ih _ _ hft.1 hft.2

/-- The section loop preserves the name-uniqueness invariant. -/
theorem extractSecs_names (gen : ℕ → String) (secs : List Section)
    (seen : List String) (out : List Issue)
    (h1 : (out.map Issue.name).Nodup)
    (h2 : ∀ n ∈ out.map Issue.name, n ∈ seen) :
    ((extractSecs gen secs seen out).2.map Issue.name).Nodup ∧
    (∀ n ∈ (extractSecs gen secs seen out).2.map Issue.name,
      n ∈ (extractSecs gen secs seen out).1) := by
  induction secs generalizing seen out with
  | nil => exact ⟨h1, h2⟩
  | cons sec rest ih =>
    simp only [extractSecs]
    have hsub := extractSubs_names gen sec.sub_sections seen out h1 h2
    exact ih _ _ hsub.1 hsub.2

/-- `extractIssues` never returns two issues with the same name: the
dedup is by `sem_header`, first occurrence winning. -/
theorem extract_names_nodup (gen : ℕ → String) (d : IssueDocument) :
    ((extractIssues gen d).map Issue.name).Nodup :=
  (extractSecs_names gen d.sections [] [] (by simp) (by simp)).1


/-- Counterexample to C4 as stated: creating "A" and " A" (distinct raw
headers, both creates succeed) flattens to one DisplayIssue, not two,
because the stored headers collide after trimming; and a created issue's
id is not its name — it is the name plus a dash and a random suffix. -/
theorem claim_c4_counterexample :
    (createMany ["A", " A"] emptyDoc).map
      (fun d => (extractIssues (fun _ => "x7q2") d).length) = some 1 ∧
    (createMany ["A"] emptyDoc).map
      (fun d => (extractIssues (fun _ => "x7q2") d).map
        (fun i => (i.id, i.name))) = some [("A-x7q2", "A")] ∧
    ("A-x7q2" : String) ≠ "A" := by
  exact ⟨rfl, rfl, by decide⟩

/-- C4 (amended): for a run of successful creates from the empty
document whose headers are non-empty, already trimmed and pairwise
distinct, flatten returns exactly N DisplayIssues in insertion order,
each name equal to the stored `sem_header`; each id is the name followed
by "-" and the random suffix of its position — never equal to the name;
and on any document flatten deduplicates by `sem_header` with the first
occurrence winning (no name repeats in its output). -/
theorem claim_c4 (hs : List String) (gen : ℕ → String)
    (hgood : ∀ h ∈ hs, h ≠ "" ∧ jsTrim h = h) (hnd : hs.Nodup) :
    (∃ d, createMany hs emptyDoc = some d ∧
      extractIssues gen d = mkDisplay gen hs 0 ∧
      (extractIssues gen d).length = hs.length ∧
      (extractIssues gen d).map Issue.name = hs ∧
      (extractIssues gen d).map Issue.id =
        List.zipWith (fun h j => h ++ "-" ++ gen j) hs
          (List.range' 0 hs.length) ∧
      ∀ i ∈ extractIssues gen d, i.id ≠ i.name) ∧
    (∀ g0 d0, ((extractIssues g0 d0).map Issue.name).Nodup) := by
  constructor
  · have hgood2 : ∀ h ∈ hs, jsTrim h = h := fun h hm => (hgood h hm).2
    cases hs with
    | nil =>
      refine ⟨emptyDoc, rfl, rfl, rfl, rfl, rfl, ?_⟩
      simp [extractIssues, extractSecs, emptyDoc]
    | cons h t =>
      have h0 := (hgood h (List.mem_cons_self h t)).1
      have htr := (hgood h (List.mem_cons_self h t)).2
      have hstep : createStep (mkP h) emptyDoc =
          some (docW [⟨defTemplate h⟩]) := by
        simp [createStep, postRoute, mkP, emptyDoc, ensureDoc, firstSub,
          insertFirstSub, h0, docW, defTemplate]
      have hrest := createMany_docW t [⟨defTemplate h⟩]
        (fun h2 hm => hgood h2 (List.mem_cons_of_mem h hm))
        (List.Nodup.of_cons hnd)
        (by
          intro h2 hm ft hft
          rcases List.mem_singleton.mp hft with rfl
          show (defTemplate h).sem_header ≠ h2
          have hdt : (defTemplate h).sem_header = h := by
            simp [defTemplate, buildTemplate, htr]
          rw [hdt]
          intro hEq
          exact (List.nodup_cons.mp hnd).1 (hEq ▸ hm))
      have hmain : createMany (h :: t) emptyDoc =
          some (docW ((h :: t).map (fun h2 => ⟨defTemplate h2⟩))) := by
        simp only [createMany, hstep, hrest, List.map_cons]
        simp
      have hex := extract_docW gen (h :: t) hgood hnd
      refine ⟨_, hmain, hex, ?_, ?_, ?_, ?_⟩
      · rw [hex, mkDisplay_length]
      · rw [hex, mkDisplay_map_name _ _ _ hgood2]
      · rw [hex, mkDisplay_map_id _ _ _ hgood2]
      · rw [hex]
        exact mkDisplay_id_ne_name gen (h :: t) 0
  · exact fun g0 d0 => extract_names_nodup g0 d0

/-- Witness for C4: two concrete creates, flattened. -/
theorem claim_c4_witness :
    ((∀ h2, h2 ∈ (["Disable legacy auth", "Rotate keys"] : List String) →
      h2 ≠ "" ∧ jsTrim h2 = h2) ∧
      (["Disable legacy auth", "Rotate keys"] : List String).Nodup) ∧
    ((∃ d, createMany ["Disable legacy auth", "Rotate keys"] emptyDoc =
        some d ∧
      extractIssues (fun _ => "x7q2") d =
        mkDisplay (fun _ => "x7q2") ["Disable legacy auth", "Rotate keys"] 0 ∧
      (extractIssues (fun _ => "x7q2") d).length =
        (["Disable legacy auth", "Rotate keys"] : List String).length ∧
      (extractIssues (fun _ => "x7q2") d).map Issue.name =
        ["Disable legacy auth", "Rotate keys"] ∧
      (extractIssues (fun _ => "x7q2") d).map Issue.id =
        List.zipWith (fun h j => h ++ "-" ++ (fun _ => "x7q2") j)
          ["Disable legacy auth", "Rotate keys"]
          (List.range' 0
            (["Disable legacy auth", "Rotate keys"] : List String).length) ∧
      ∀ i ∈ extractIssues (fun _ => "x7q2") d, i.id ≠ i.name) ∧
    (∀ g0 d0, ((extractIssues g0 d0).map Issue.name).Nodup)) :=
  ⟨⟨by decide, by decide⟩,
    claim_c4 ["Disable legacy auth", "Rotate keys"] (fun _ => "x7q2")
      (by decide) (by decide)⟩
